import Mathlib

/-!
Shallow embedding of the form state and validation engines of the
xm-rn-ui repository: the `useCreateForm` engine of src/form/form-2.tsx
(namespace `Form2`) and the `useForm` engine of
src/components/form/form-3.tsx (namespace `Form3`).

Modelling conventions: JavaScript records are `JsObj` (ordered
string-keyed entries with spread-update semantics) when their key set is
observable, and total functions `String → β` with an explicit default
otherwise; the JS `undefined` is `Option.none`; a rule check that either
returns a boolean (possibly after awaiting a promise) or fails to
complete (throws / rejects) is a function into `Except ε Bool`, where
`ε` is the type of thrown values.
-/

/-- Pointwise update of a string-keyed total map, modelling the JS
spread update of a record that is only ever read back by key. -/
def setKey {β : Type} (f : String → β) (k : String) (v : β) : String → β :=
  fun x => if x = k then v else f x

/-- Ordered string-keyed object, as a JS object literal: entry order is
insertion order, and updating an existing key keeps its position. -/
structure JsObj (α : Type) where
  entries : List (String × α)
  deriving DecidableEq, Repr

namespace JsObj

variable {α : Type}

/-- Property read on an entry list: first entry with the key, `none`
when the key is absent. -/
def getEntries : List (String × α) → String → Option α
  | [], _ => none
  | (k', v') :: rest, k => if k' = k then some v' else getEntries rest k

/-- Property read `o[k]`. -/
def get (o : JsObj α) (k : String) : Option α :=
  getEntries o.entries k

/-- Property write on an entry list: replace in place when the key
exists, append otherwise (JS object update order). -/
def setEntries : List (String × α) → String → α → List (String × α)
  | [], k, v => [(k, v)]
  | (k', v') :: rest, k, v =>
    if k' = k then (k, v) :: rest else (k', v') :: setEntries rest k v

/-- Property write, as the spread update used throughout both engines. -/
def set (o : JsObj α) (k : String) (v : α) : JsObj α :=
  ⟨setEntries o.entries k v⟩

/-- Key list, as `Object.keys`. -/
def keys (o : JsObj α) : List String :=
  o.entries.map Prod.fst

/-- Read of a record whose stored values may themselves be undefined:
an absent key and a key stored as undefined both read as undefined. -/
def read (o : JsObj (Option α)) (k : String) : Option α :=
  (o.get k).getD none

end JsObj

namespace Form2

/-- Error produced by a failing rule in src/form/form-2.tsx, built by
assigning the field name and the value at validation time onto an
`Error` carrying the rule's message. -/
structure FormFieldError (α : Type) where
  message : String
  field : String
  value : Option α
  deriving DecidableEq, Repr

/-- Validation rule of form-2: a `passWhen` check that may return a
boolean or fail to complete, plus an optional `errorMessage`. -/
structure ValidationRule (α ε : Type) where
  passWhen : Option α → Except ε Bool
  errorMessage : Option String

/-- The mutable form state held by `useCreateForm` in
`formStateRef.current`. -/
structure FormState (α ε : Type) where
  values : JsObj (Option α)
  errors : String → Option (FormFieldError α)
  rules : String → List (ValidationRule α ε)
  isValidating : String → Bool
  touched : String → Bool

variable {α ε : Type}

/-- Message of a produced error: the rule's `errorMessage` when truthy,
the fallback text otherwise (an empty string is falsy in JS). -/
def defaultMessage : Option String → String
  | some s => if s = "" then "Validation failed" else s
  | none => "Validation failed"

/-- Outcome of walking one rule chain. -/
inductive RunOutcome (ε : Type) where
  | passed
  | failed (errorMessage : Option String)
  | threw (e : ε)
  deriving DecidableEq, Repr

/-- The rule loop of `validateField`: rules run sequentially against the
value snapshotted at entry; the first rule whose check returns false
ends the walk, and a check that fails to complete ends it with the
thrown value. -/
def runRules (value : Option α) : List (ValidationRule α ε) → RunOutcome ε
  | [] => .passed
  | rule :: rest =>
    match rule.passWhen value with
    | .error e => .threw e
    | .ok false => .failed rule.errorMessage
    | .ok true => runRules value rest

/-- Settled outcome of the promise returned by `validateField`. -/
inductive FieldOutcome (α ε : Type) where
  | resolved (value : Option α)
  | rejectedError (e : FormFieldError α)
  | rejectedThrown (e : ε)
  deriving DecidableEq, Repr

/-- The `validateField` action of form-2.  It snapshots the field's
value, sets `isValidating[name]`, then walks the rule chain.  On a rule
returning false it stores the produced error and executes
`return Promise.reject(error)` inside the `try` block: returning a
rejected promise is not a throw, so the surrounding `catch` does not
run and `isValidating[name]` is left set on that path.  The `catch`
(which clears the flag and rethrows) runs only when a rule check itself
throws.  When every rule passes, the error is cleared and the flag is
cleared. -/
def validateField (s : FormState α ε) (name : String) :
    FieldOutcome α ε × FormState α ε :=
  let value := s.values.read name
  let s1 : FormState α ε := { s with isValidating := setKey s.isValidating name true }
  match runRules value (s.rules name) with
  | .failed msg =>
    let e : FormFieldError α := ⟨defaultMessage msg, name, value⟩
    (.rejectedError e, { s1 with errors := setKey s1.errors name (some e) })
  | .threw exn =>
    (.rejectedThrown exn, { s1 with isValidating := setKey s1.isValidating name false })
  | .passed =>
    (.resolved value,
      { s1 with
          errors := setKey s1.errors name none,
          isValidating := setKey s1.isValidating name false })

/-- The field loop of form-2's `validate`: each field's failure is
caught (the source comments that validation failed but it continues
with other fields), so the loop proceeds to the next target either
way; only resolved fields are written into `validatedValues`. -/
def validateGo (s : FormState α ε) (acc : JsObj (Option α)) :
    List String → JsObj (Option α) × FormState α ε
  | [] => (acc, s)
  | name :: rest =>
    match validateField s name with
    | (.resolved v, s') => validateGo s' (acc.set name v) rest
    | (.rejectedError _, s') => validateGo s' acc rest
    | (.rejectedThrown _, s') => validateGo s' acc rest

/-- The `validate` action of form-2: targets are the caller's list, or
all keys of the value store when none is given; the call always
resolves with the accumulated `validatedValues`. -/
def validate (s : FormState α ε) (names : Option (List String)) :
    JsObj (Option α) × FormState α ε :=
  validateGo s ⟨[]⟩ (names.getD s.values.keys)

/-- The `setValue` action of form-2: writes the value and triggers a
refresh; it does not touch the error store. -/
def setValue (s : FormState α ε) (name : String) (value : Option α) :
    FormState α ε :=
  { s with values := s.values.set name value }

/-- The `setRules` action of form-2: wholesale replacement of the
field's rule chain; the error store is not touched. -/
def setRules (s : FormState α ε) (name : String)
    (rules : List (ValidationRule α ε)) : FormState α ε :=
  { s with rules := setKey s.rules name rules }

/-- The `reset` action of form-2: it computes a `fieldsToReset` list
from its argument but then ignores it, restoring all values to the
initial values captured at form creation and emptying the error,
touched and validating stores; rule chains are left untouched. -/
def reset (initialValues : JsObj (Option α)) (s : FormState α ε)
    (fields : Option (List String)) : FormState α ε :=
  let _fieldsToReset := fields.getD s.values.keys
  { values := initialValues
    errors := fun _ => none
    rules := s.rules
    isValidating := fun _ => false
    touched := fun _ => false }

end Form2

namespace Form3

/-- The `FormFieldError` class of form-3: it extends `Error` and its
constructor takes only an optional message; no field name and no value
are stored. -/
structure FormFieldError where
  message : Option String
  deriving DecidableEq, Repr

/-- Rule shape of form-3: a check plus an optional message. -/
structure I_Rule (α ε : Type) where
  validate : Option α → Except ε Bool
  message : Option String

/-- The three refs of form-3's `useForm`. -/
structure FormState (α ε : Type) where
  formFieldsValue : JsObj (Option α)
  formFieldsError : String → Option FormFieldError
  formFieldsRules : String → List (I_Rule α ε)

variable {α ε : Type}

/-- A JS throw out of form-3's `validate`: either the `FormFieldError`
built from a failing rule, or whatever a rule check itself threw. -/
inductive JsThrow (ε : Type) where
  | fieldError (e : FormFieldError)
  | exn (e : ε)
  deriving DecidableEq, Repr

/-- First non-passing step of one rule chain. -/
inductive ChainOutcome (ε : Type) where
  | allPassed
  | failedAt (message : Option String)
  | threw (e : ε)
  deriving DecidableEq, Repr

/-- Result of walking one rule chain of form-3 against a fixed value. -/
def chainOutcome (value : Option α) : List (I_Rule α ε) → ChainOutcome ε
  | [] => .allPassed
  | r :: rest =>
    match r.validate value with
    | .error e => .threw e
    | .ok false => .failedAt r.message
    | .ok true => chainOutcome value rest

/-- Inner rule loop of form-3's `validate`: after each passing rule the
field is spread into the accumulating result object, so a field with at
least one rule that all passed ends up present exactly once. -/
def runFieldRules (name : String) (value : Option α) (acc : JsObj (Option α)) :
    List (I_Rule α ε) → ChainOutcome ε × JsObj (Option α)
  | [] => (.allPassed, acc)
  | r :: rest =>
    match r.validate value with
    | .error e => (.threw e, acc)
    | .ok false => (.failedAt r.message, acc)
    | .ok true => runFieldRules name value (acc.set name value) rest

/-- Outer field loop of form-3's `validate`: a field with no registered
rules (absent or empty chain) is skipped; the first failing rule stores
a fresh `FormFieldError` for its field and throws an equal one, ending
the entire call; a rule check's own failure propagates out with no
state change. -/
def validateGo (s : FormState α ε) (acc : JsObj (Option α)) :
    List String → Except (JsThrow ε) (JsObj (Option α)) × FormState α ε
  | [] => (.ok acc, s)
  | name :: rest =>
    if (s.formFieldsRules name).isEmpty then validateGo s acc rest
    else
      match runFieldRules name (s.formFieldsValue.read name) acc
          (s.formFieldsRules name) with
      | (.allPassed, acc') => validateGo s acc' rest
      | (.failedAt msg, _) =>
        (.error (.fieldError ⟨msg⟩),
          { s with formFieldsError := setKey s.formFieldsError name (some ⟨msg⟩) })
      | (.threw e, _) => (.error (.exn e), s)

/-- The `validate` action of form-3.  Its `names` parameter carries the
default value of the empty list, so after the default is applied the
nullish-coalescing fallback to `Object.keys` of the value store can
never fire (the parameter is no longer nullish): a call with no
argument iterates over the empty list and validates no fields. -/
def validate (s : FormState α ε) (names : Option (List String)) :
    Except (JsThrow ε) (JsObj (Option α)) × FormState α ε :=
  validateGo s ⟨[]⟩ (names.getD [])

/-- The `onUpdateFormFieldError` action of form-3: pointwise error
write (absent error argument clears the field's error). -/
def onUpdateFormFieldError (s : FormState α ε) (name : String)
    (error : Option FormFieldError) : FormState α ε :=
  { s with formFieldsError := setKey s.formFieldsError name error }

/-- The `onUpdateFormField` action of form-3: writes the value, then
calls `onUpdateFormFieldError` with no error, clearing the field's
error.  The `ignoredRules` flag declared on the context type is not
consulted by the implementation, which always clears. -/
def onUpdateFormField (s : FormState α ε) (name : String) (value : Option α) :
    FormState α ε :=
  onUpdateFormFieldError
    { s with formFieldsValue := s.formFieldsValue.set name value } name none

/-- The `onUpdateFormFieldRules` action of form-3: wholesale rule
replacement, then the field's error is reset to a freshly constructed
message-less `FormFieldError` marker. -/
def onUpdateFormFieldRules (s : FormState α ε) (name : String)
    (rules : List (I_Rule α ε)) : FormState α ε :=
  onUpdateFormFieldError
    { s with formFieldsRules := setKey s.formFieldsRules name rules } name
    (some ⟨none⟩)

end Form3

/-! Concrete form states used to test the engines on explicit inputs. -/

/-- Form-2 state whose fields A and B each carry one failing rule. -/
def failTwoFieldsForm2 : Form2.FormState Nat Unit where
  values := ⟨[("A", some 1), ("B", some 2)]⟩
  errors := fun _ => none
  rules := fun n =>
    if n = "A" then [⟨fun _ => .ok false, some "msgA"⟩]
    else if n = "B" then [⟨fun _ => .ok false, some "msgB"⟩]
    else []
  isValidating := fun _ => false
  touched := fun _ => false

/-- Form-3 state whose field A passes one rule then fails one, while
field B carries a single passing rule. -/
def shortCircuitForm3 : Form3.FormState Nat Unit where
  formFieldsValue := ⟨[("A", some 1), ("B", some 2)]⟩
  formFieldsError := fun _ => none
  formFieldsRules := fun n =>
    if n = "A" then [⟨fun _ => .ok true, none⟩, ⟨fun _ => .ok false, some "msg"⟩]
    else if n = "B" then [⟨fun _ => .ok true, none⟩]
    else []

/-- Form-3 state with a single field A carrying one failing rule. -/
def failOneFieldForm3 : Form3.FormState Nat Unit where
  formFieldsValue := ⟨[("A", some 1)]⟩
  formFieldsError := fun _ => none
  formFieldsRules := fun n =>
    if n = "A" then [⟨fun _ => .ok false, some "m"⟩] else []

/-- Form-2 state with a single field A carrying one failing rule. -/
def failOneFieldForm2 : Form2.FormState Nat Unit where
  values := ⟨[("A", some 1)]⟩
  errors := fun _ => none
  rules := fun n => if n = "A" then [⟨fun _ => .ok false, some "m"⟩] else []
  isValidating := fun _ => false
  touched := fun _ => false

/-- Form-2 state whose field A already holds a stored error. -/
def staleErrorForm2 : Form2.FormState Nat Unit where
  values := ⟨[("A", some 1)]⟩
  errors := fun n => if n = "A" then some ⟨"old", "A", some 1⟩ else none
  rules := fun _ => []
  isValidating := fun _ => false
  touched := fun _ => false

/-- A replacement rule chain with a single passing rule. -/
def freshRulesForm2 : List (Form2.ValidationRule Nat Unit) :=
  [⟨fun _ => .ok true, none⟩]

/-- Form-2 state with one valued field and no registered rules. -/
def ruleLessForm2 : Form2.FormState Nat Unit where
  values := ⟨[("A", some 7)]⟩
  errors := fun _ => none
  rules := fun _ => []
  isValidating := fun _ => false
  touched := fun _ => false

/-- Form-3 state where field A has no rules and field B has a passing
rule. -/
def mixedRulesForm3 : Form3.FormState Nat Unit where
  formFieldsValue := ⟨[("A", some 4), ("B", some 5)]⟩
  formFieldsError := fun _ => none
  formFieldsRules := fun n => if n = "B" then [⟨fun _ => .ok true, none⟩] else []

/-- Form-2 state whose field A carries a rule whose check itself fails
with the thrown value "boom". -/
def throwingRuleForm2 : Form2.FormState Nat String where
  values := ⟨[("A", some 1)]⟩
  errors := fun _ => none
  rules := fun n => if n = "A" then [⟨fun _ => .error "boom", none⟩] else []
  isValidating := fun _ => false
  touched := fun _ => false

/-- Form-3 state whose field A carries a rule whose check itself fails
with the thrown value "boom". -/
def throwingRuleForm3 : Form3.FormState Nat String where
  formFieldsValue := ⟨[("A", some 1)]⟩
  formFieldsError := fun _ => none
  formFieldsRules := fun n => if n = "A" then [⟨fun _ => .error "boom", none⟩] else []

/-- Form-3 state with two fields of distinct values, each carrying one
failing rule with the same message. -/
def twoFailingFieldsForm3 : Form3.FormState Nat Unit where
  formFieldsValue := ⟨[("A", some 1), ("B", some 2)]⟩
  formFieldsError := fun _ => none
  formFieldsRules := fun n =>
    if n = "A" then [⟨fun _ => .ok false, some "m"⟩]
    else if n = "B" then [⟨fun _ => .ok false, some "m"⟩]
    else []

/-- Form-2 state whose field A holds the value 3 and one failing rule. -/
def failValueForm2 : Form2.FormState Nat Unit where
  values := ⟨[("A", some 3)]⟩
  errors := fun _ => none
  rules := fun n => if n = "A" then [⟨fun _ => .ok false, some "m"⟩] else []
  isValidating := fun _ => false
  touched := fun _ => false

/-- Form-2 state whose field A holds a stale stored error and a single
passing rule. -/
def priorErrorPassingForm2 : Form2.FormState Nat Unit where
  values := ⟨[("A", some 1)]⟩
  errors := fun n => if n = "A" then some ⟨"old", "A", some 0⟩ else none
  rules := fun n => if n = "A" then [⟨fun _ => .ok true, none⟩] else []
  isValidating := fun _ => false
  touched := fun _ => false

/-! Helper lemmas about the JS object model and the form-3 loops. -/

theorem JsObj.getEntries_setEntries_self {α : Type} (k : String) (v : α) :
    ∀ l : List (String × α),
      JsObj.getEntries (JsObj.setEntries l k v) k = some v := by
  intro l
  induction l with
  | nil => simp [JsObj.setEntries, JsObj.getEntries]
  | cons hd tl ih =>
    obtain ⟨k', v'⟩ := hd
    by_cases h : k' = k
    · simp [JsObj.setEntries, JsObj.getEntries, h]
    · simp [JsObj.setEntries, JsObj.getEntries, h, ih]

theorem JsObj.get_set_self {α : Type} (o : JsObj α) (k : String) (v : α) :
    (o.set k v).get k = some v :=
  JsObj.getEntries_setEntries_self k v o.entries

theorem JsObj.getEntries_setEntries_ne {α : Type} (k k' : String) (v : α)
    (h : k' ≠ k) :
    ∀ l : List (String × α),
      JsObj.getEntries (JsObj.setEntries l k v) k' = JsObj.getEntries l k' := by
  intro l
  induction l with
  | nil => simp [JsObj.setEntries, JsObj.getEntries, Ne.symm h]
  | cons hd tl ih =>
    obtain ⟨k'', v''⟩ := hd
    by_cases h2 : k'' = k
    · subst h2
      simp [JsObj.setEntries, JsObj.getEntries, Ne.symm h]
    · simp [JsObj.setEntries, JsObj.getEntries, h2, ih]

theorem JsObj.get_set_ne {α : Type} (o : JsObj α) (k k' : String) (v : α)
    (h : k' ≠ k) : (o.set k v).get k' = o.get k' :=
  JsObj.getEntries_setEntries_ne k k' v h o.entries

theorem JsObj.read_set_self {α : Type} (o : JsObj (Option α)) (k : String)
    (v : Option α) : (o.set k v).read k = v := by
  simp [JsObj.read, JsObj.get_set_self]

theorem Form3.runFieldRules_fst {α ε : Type} (name : String) (value : Option α) :
    ∀ (rs : List (Form3.I_Rule α ε)) (acc : JsObj (Option α)),
      (Form3.runFieldRules name value acc rs).1 = Form3.chainOutcome value rs := by
  intro rs
  induction rs with
  | nil => intro acc; rfl
  | cons r rest ih =>
    intro acc
    rcases h : r.validate value with e | b
    · simp [Form3.runFieldRules, Form3.chainOutcome, h]
    · cases b
      · simp [Form3.runFieldRules, Form3.chainOutcome, h]
      · simp [Form3.runFieldRules, Form3.chainOutcome, h, ih]

theorem Form3.runFieldRules_get {α ε : Type} (name : String) (value : Option α) :
    ∀ (rs : List (Form3.I_Rule α ε)) (acc : JsObj (Option α)) (k : String),
      ((Form3.runFieldRules name value acc rs).2).get k = acc.get k ∨
        (k = name ∧
          ((Form3.runFieldRules name value acc rs).2).get k = some value) := by
  intro rs
  induction rs with
  | nil => intro acc k; left; rfl
  | cons r rest ih =>
    intro acc k
    rcases h : r.validate value with e | b
    · left; simp [Form3.runFieldRules, h]
    · cases b
      · left; simp [Form3.runFieldRules, h]
      · have hred : Form3.runFieldRules name value acc (r :: rest) =
            Form3.runFieldRules name value (acc.set name value) rest := by
          simp [Form3.runFieldRules, h]
        rw [hred]
        rcases ih (acc.set name value) k with h1 | h2
        · by_cases hk : k = name
          · subst hk
            right
            refine ⟨rfl, ?_⟩
            rw [h1, JsObj.get_set_self]
          · left
            rw [h1, JsObj.get_set_ne _ _ _ _ hk]
        · right; exact h2

theorem Form3.validateGo_append_passing {α ε : Type} (s : Form3.FormState α ε)
    (tail : List String)
    (R : Except (Form3.JsThrow ε) (JsObj (Option α)) × Form3.FormState α ε)
    (hR : ∀ acc, Form3.validateGo s acc tail = R) :
    ∀ (pre : List String),
      (∀ m ∈ pre,
        Form3.chainOutcome (s.formFieldsValue.read m) (s.formFieldsRules m) =
            Form3.ChainOutcome.allPassed ∨ s.formFieldsRules m = []) →
      ∀ acc, Form3.validateGo s acc (pre ++ tail) = R := by
  intro pre
  induction pre with
  | nil => intro _ acc; simpa using hR acc
  | cons m pre' ih =>
    intro hpre acc
    have hm := hpre m (List.mem_cons_self m pre')
    have hrest : ∀ x ∈ pre',
        Form3.chainOutcome (s.formFieldsValue.read x) (s.formFieldsRules x) =
            Form3.ChainOutcome.allPassed ∨ s.formFieldsRules x = [] :=
      fun x hx => hpre x (List.mem_cons_of_mem m hx)
    rcases hrs : s.formFieldsRules m with _ | ⟨r, rs⟩
    · rw [List.cons_append]
      have hskip : Form3.validateGo s acc (m :: (pre' ++ tail)) =
          Form3.validateGo s acc (pre' ++ tail) := by
        simp [Form3.validateGo, hrs]
      rw [hskip]
      exact ih hrest acc
    · have hall : Form3.chainOutcome (s.formFieldsValue.read m)
          (s.formFieldsRules m) = Form3.ChainOutcome.allPassed := by
        rcases hm with h | h
        · exact h
        · rw [h] at hrs; cases hrs
      rcases hrun : Form3.runFieldRules m (s.formFieldsValue.read m) acc (r :: rs)
        with ⟨out, acc'⟩
      have h1 := Form3.runFieldRules_fst m (s.formFieldsValue.read m) (r :: rs) acc
      rw [hrun] at h1
      rw [hrs] at hall
      have hout : out = Form3.ChainOutcome.allPassed := h1.trans hall
      subst hout
      rw [List.cons_append]
      have hstep : Form3.validateGo s acc (m :: (pre' ++ tail)) =
          Form3.validateGo s acc' (pre' ++ tail) := by
        simp [Form3.validateGo, hrs, hrun, List.isEmpty]
      rw [hstep]
      exact ih hrest acc'

theorem Form3.validateGo_ok_mem {α ε : Type} (s : Form3.FormState α ε) :
    ∀ (ns : List String) (acc res : JsObj (Option α)) (s' : Form3.FormState α ε),
      Form3.validateGo s acc ns = (Except.ok res, s') →
      ∀ n, res.get n = acc.get n ∨
        (n ∈ ns ∧ s.formFieldsRules n ≠ [] ∧
          Form3.chainOutcome (s.formFieldsValue.read n) (s.formFieldsRules n) =
            Form3.ChainOutcome.allPassed ∧
          res.get n = some (s.formFieldsValue.read n)) := by
  intro ns
  induction ns with
  | nil =>
    intro acc res s' h n
    simp [Form3.validateGo] at h
    left
    rw [h.1]
  | cons name rest ih =>
    intro acc res s' h n
    rcases hrs : s.formFieldsRules name with _ | ⟨r, rs⟩
    · have hskip : Form3.validateGo s acc (name :: rest) =
          Form3.validateGo s acc rest := by
        simp [Form3.validateGo, hrs]
      rw [hskip] at h
      rcases ih acc res s' h n with h1 | ⟨hmem, hrest⟩
      · left; exact h1
      · right; exact ⟨List.mem_cons_of_mem _ hmem, hrest⟩
    · rcases hrun : Form3.runFieldRules name (s.formFieldsValue.read name) acc
          (r :: rs) with ⟨out, acc'⟩
      have h1 := Form3.runFieldRules_fst name (s.formFieldsValue.read name)
        (r :: rs) acc
      rw [hrun] at h1
      cases out with
      | allPassed =>
        have h2 : Form3.validateGo s acc' rest = (Except.ok res, s') := by
          have hstep : Form3.validateGo s acc (name :: rest) =
              Form3.validateGo s acc' rest := by
            simp [Form3.validateGo, hrs, hrun, List.isEmpty]
          rw [hstep] at h
          exact h
        rcases ih acc' res s' h2 n with h3 | ⟨hmem, hrest⟩
        · have h4 := Form3.runFieldRules_get name (s.formFieldsValue.read name)
            (r :: rs) acc n
          rw [hrun] at h4
          rcases h4 with h5 | ⟨hn, h6⟩
          · left
            rw [h3, h5]
          · right
            subst hn
            refine ⟨List.mem_cons_self n rest, ?_, ?_, ?_⟩
            · rw [hrs]; simp
            · rw [hrs]; exact h1.symm
            · rw [h3, h6]
        · right
          exact ⟨List.mem_cons_of_mem _ hmem, hrest⟩
      | failedAt msg =>
        have : Form3.validateGo s acc (name :: rest) =
            (Except.error (Form3.JsThrow.fieldError ⟨msg⟩),
              { s with formFieldsError :=
                  setKey s.formFieldsError name (some ⟨msg⟩) }) := by
          simp [Form3.validateGo, hrs, hrun, List.isEmpty]
        rw [this] at h
        simp at h
      | threw e =>
        have : Form3.validateGo s acc (name :: rest) =
            (Except.error (Form3.JsThrow.exn e), s) := by
          simp [Form3.validateGo, hrs, hrun, List.isEmpty]
        rw [this] at h
        simp at h

/-! Claim theorems. -/

/-- Claim C9: form-2's reset ignores which fields were named: for every
list of field names it restores the whole values mapping to the initial
values and clears all errors, touched flags and validating flags, the
same as a reset with no list at all. -/
theorem form2_reset_ignores_field_list {α ε : Type}
    (initialValues : JsObj (Option α)) (s : Form2.FormState α ε)
    (fields : List String) :
    Form2.reset initialValues s (some fields) =
      { values := initialValues
        errors := fun _ => none
        rules := s.rules
        isValidating := fun _ => false
        touched := fun _ => false } ∧
    Form2.reset initialValues s (some fields) =
      Form2.reset initialValues s none :=
  ⟨rfl, rfl⟩

/-- Claim C10: in form-2, a single-field validation pass in which every
rule passes (including an empty chain) leaves `errors[name]` absent
afterwards, even when an error was stored for the field before. -/
theorem form2_validateField_success_clears_error {α ε : Type}
    (s : Form2.FormState α ε) (name : String) (v : Option α)
    (s' : Form2.FormState α ε)
    (h : Form2.validateField s name = (Form2.FieldOutcome.resolved v, s')) :
    s'.errors name = none := by
  rcases hr : Form2.runRules (s.values.read name) (s.rules name) with _ | msg | ex
  · have hv : Form2.validateField s name =
        (Form2.FieldOutcome.resolved (s.values.read name),
          { s with
              errors := setKey s.errors name none,
              isValidating :=
                setKey (setKey s.isValidating name true) name false }) := by
      simp [Form2.validateField, hr]
    rw [hv] at h
    have h2 := congrArg Prod.snd h
    simp only at h2
    rw [← h2]
    simp [setKey]
  · simp [Form2.validateField, hr] at h
  · simp [Form2.validateField, hr] at h

/-- Witness for C10 at a concrete input: a field with a stale stored
error and one passing rule has no error after the pass. -/
theorem form2_validateField_success_clears_error_witness :
    ((Form2.validateField priorErrorPassingForm2 "A").2).errors "A" = none :=
  form2_validateField_success_clears_error priorErrorPassingForm2 "A" (some 1)
    ((Form2.validateField priorErrorPassingForm2 "A").2) rfl

/-- Claim C4 (amended): form-3's rule registration replaces the chain
wholesale and resets the field's error to a fresh message-less marker,
while form-2's setRules replaces the chain wholesale but leaves the
error store unchanged. -/
theorem rule_registration_replace_and_error_policy {α ε : Type}
    (s3 : Form3.FormState α ε) (rs3 : List (Form3.I_Rule α ε))
    (s2 : Form2.FormState α ε) (rs2 : List (Form2.ValidationRule α ε))
    (name : String) :
    (Form3.onUpdateFormFieldRules s3 name rs3).formFieldsRules name = rs3 ∧
    (Form3.onUpdateFormFieldRules s3 name rs3).formFieldsError name =
      some { message := none } ∧
    (Form2.setRules s2 name rs2).rules name = rs2 ∧
    (Form2.setRules s2 name rs2).errors = s2.errors := by
  refine ⟨?_, ?_, ?_, rfl⟩ <;>
    simp [Form3.onUpdateFormFieldRules, Form3.onUpdateFormFieldError,
      Form2.setRules, setKey]

/-- Counterexample to C4 as stated: after form-2's setRules replaces
field A's chain, the error stored under the previous rule set is still
observable, not reset to a fresh marker. -/
theorem form2_setRules_keeps_stale_error_counterexample :
    (Form2.setRules staleErrorForm2 "A" freshRulesForm2).errors "A" =
        some ⟨"old", "A", some 1⟩ ∧
      (Form2.setRules staleErrorForm2 "A" freshRulesForm2).rules "A" =
        freshRulesForm2 := by
  constructor
  · rfl
  · simp [Form2.setRules, setKey]

/-- Claim C8 (amended): form-3's onUpdateFormField writes the value and
always clears the field's error, while form-2's setValue writes the
value but leaves the error store untouched. -/
theorem update_field_error_clear_policy {α ε : Type} (s3 : Form3.FormState α ε)
    (s2 : Form2.FormState α ε) (name : String) (v : Option α) :
    (Form3.onUpdateFormField s3 name v).formFieldsValue.read name = v ∧
    (Form3.onUpdateFormField s3 name v).formFieldsError name = none ∧
    (Form2.setValue s2 name v).values.read name = v ∧
    (Form2.setValue s2 name v).errors = s2.errors := by
  refine ⟨?_, ?_, ?_, rfl⟩
  · simpa [Form3.onUpdateFormField, Form3.onUpdateFormFieldError] using
      JsObj.read_set_self s3.formFieldsValue name v
  · simp [Form3.onUpdateFormField, Form3.onUpdateFormFieldError, setKey]
  · simpa [Form2.setValue] using JsObj.read_set_self s2.values name v

/-- Counterexample to C8 as stated: form-2's setValue writes the value
but the previously stored error for the field is still present. -/
theorem form2_setValue_keeps_error_counterexample :
    (Form2.setValue staleErrorForm2 "A" (some 2)).errors "A" =
        some ⟨"old", "A", some 1⟩ ∧
      (Form2.setValue staleErrorForm2 "A" (some 2)).values.read "A" = some 2 :=
  ⟨rfl, rfl⟩

/-- Claim C2 (amended): form-2's validate with no explicit list targets
exactly the keys of the value store, while form-3's validate treats a
missing list as the empty list, so a no-argument call validates no
fields. -/
theorem validate_default_target_set {α ε : Type} (s2 : Form2.FormState α ε)
    (s3 : Form3.FormState α ε) :
    Form2.validate s2 none = Form2.validate s2 (some s2.values.keys) ∧
    Form3.validate s3 none = Form3.validate s3 (some []) :=
  ⟨rfl, rfl⟩

/-- Counterexample to C2 as stated: in form-3, a state whose value
store holds a field with a failing rule is returned unchanged with an
empty result by a no-argument validate; the field is never validated
and nothing is rejected. -/
theorem form3_validate_no_args_validates_nothing_counterexample :
    Form3.validate failOneFieldForm3 none = (Except.ok ⟨[]⟩, failOneFieldForm3) ∧
      failOneFieldForm3.formFieldsRules "A" ≠ [] :=
  ⟨rfl, by simp [failOneFieldForm3]⟩

/-- Claim C3, evaluated at the failing input: when a rule returns false,
form-2's validateField rejects with the produced error and stores it,
but `isValidating` for the field is left true after the call has
settled, because the rejected promise is returned from inside the try
block and the catch that clears the flag never runs. -/
theorem form2_validating_left_true_on_rule_failure :
    ((Form2.validateField failOneFieldForm2 "A").2).isValidating "A" = true ∧
      (Form2.validateField failOneFieldForm2 "A").1 =
        Form2.FieldOutcome.rejectedError ⟨"m", "A", some 1⟩ ∧
      ((Form2.validateField failOneFieldForm2 "A").2).errors "A" =
        some ⟨"m", "A", some 1⟩ :=
  ⟨rfl, rfl, rfl⟩

/-- Counterexample to C5 as stated: form-2's validate includes a
rule-less target field in its result mapping with its current value. -/
theorem form2_validate_includes_ruleless_field_counterexample :
    (Form2.validate ruleLessForm2 (some ["A"])).1 = ⟨[("A", some 7)]⟩ ∧
      ruleLessForm2.rules "A" = [] :=
  ⟨rfl, rfl⟩

/-- Counterexample to C1 as stated: with field A failing before field B
in the target order, form-2's validate still evaluates B's rules (B's
error is stored) and the call resolves with a result mapping instead of
rejecting. -/
theorem form2_validate_continues_after_failure_counterexample :
    ((Form2.validate failTwoFieldsForm2 (some ["A", "B"])).2).errors "B" =
        some ⟨"msgB", "B", some 2⟩ ∧
      ((Form2.validate failTwoFieldsForm2 (some ["A", "B"])).2).errors "A" =
        some ⟨"msgA", "A", some 1⟩ ∧
      (Form2.validate failTwoFieldsForm2 (some ["A", "B"])).1 = ⟨[]⟩ :=
  ⟨rfl, rfl, rfl⟩

/-- Counterexample to C6 as stated: when a rule check itself fails,
form-2's validate resolves normally with an empty result and no record
of the thrown value; the failure is swallowed, not propagated. -/
theorem form2_validate_swallows_check_failure_counterexample :
    (Form2.validate throwingRuleForm2 (some ["A"])).1 = ⟨[]⟩ ∧
      ((Form2.validate throwingRuleForm2 (some ["A"])).2).errors "A" = none ∧
      ((Form2.validate throwingRuleForm2 (some ["A"])).2).isValidating "A" =
        false :=
  ⟨rfl, rfl, rfl⟩

/-- Counterexample to C7 as stated: two form-3 fields with distinct
names and distinct values produce identical errors when they fail with
the same rule message, so the produced error carries neither the field
name nor the value. -/
theorem form3_error_lacks_field_and_value_counterexample :
    (Form3.validate twoFailingFieldsForm3 (some ["A"])).1 =
        (Form3.validate twoFailingFieldsForm3 (some ["B"])).1 ∧
      twoFailingFieldsForm3.formFieldsValue.read "A" ≠
        twoFailingFieldsForm3.formFieldsValue.read "B" :=
  ⟨rfl, by decide⟩

/-- Claim C1 (amended): in the form-3 engine, a batch validate whose
targets pass (or are rule-less) up to a field whose chain fails stores
that field's error, throws an equal error as the call's outcome, and
evaluates nothing after that field — the call is identical to one whose
target list stops at the failing field.  Form-2's engine instead
continues past a failed field. -/
theorem form3_validate_batch_short_circuit {α ε : Type}
    (s : Form3.FormState α ε) (pre : List String) (name : String)
    (post : List String) (msg : Option String)
    (hpre : ∀ m ∈ pre,
      Form3.chainOutcome (s.formFieldsValue.read m) (s.formFieldsRules m) =
          Form3.ChainOutcome.allPassed ∨ s.formFieldsRules m = [])
    (hfail : Form3.chainOutcome (s.formFieldsValue.read name)
        (s.formFieldsRules name) = Form3.ChainOutcome.failedAt msg) :
    (Form3.validate s (some (pre ++ name :: post))).1 =
        Except.error (Form3.JsThrow.fieldError ⟨msg⟩) ∧
      ((Form3.validate s (some (pre ++ name :: post))).2).formFieldsError name =
        some ⟨msg⟩ ∧
      Form3.validate s (some (pre ++ name :: post)) =
        Form3.validate s (some (pre ++ [name])) := by
  have hne : s.formFieldsRules name ≠ [] := by
    intro h0
    rw [h0] at hfail
    simp [Form3.chainOutcome] at hfail
  have hstep : ∀ (rest : List String) (acc : JsObj (Option α)),
      Form3.validateGo s acc (name :: rest) =
        (Except.error (Form3.JsThrow.fieldError ⟨msg⟩),
          { s with formFieldsError :=
              setKey s.formFieldsError name (some ⟨msg⟩) }) := by
    intro rest acc
    rcases hrs : s.formFieldsRules name with _ | ⟨r, rs⟩
    · exact absurd hrs hne
    · rcases hrun : Form3.runFieldRules name (s.formFieldsValue.read name) acc
          (r :: rs) with ⟨out, acc'⟩
      have h1 := Form3.runFieldRules_fst name (s.formFieldsValue.read name)
        (r :: rs) acc
      rw [hrun] at h1
      rw [hrs] at hfail
      have hout : out = Form3.ChainOutcome.failedAt msg := h1.trans hfail
      subst hout
      simp [Form3.validateGo, hrs, hrun, List.isEmpty]
  have h2 := Form3.validateGo_append_passing s (name :: post) _ (hstep post)
    pre hpre ⟨[]⟩
  have h3 := Form3.validateGo_append_passing s [name] _ (hstep []) pre hpre ⟨[]⟩
  have hv : Form3.validate s (some (pre ++ name :: post)) =
      Form3.validateGo s ⟨[]⟩ (pre ++ name :: post) := rfl
  have hv2 : Form3.validate s (some (pre ++ [name])) =
      Form3.validateGo s ⟨[]⟩ (pre ++ [name]) := rfl
  refine ⟨?_, ?_, ?_⟩
  · rw [hv, h2]
  · rw [hv, h2]
    simp [setKey]
  · rw [hv, h2, hv2, h3]

/-- Witness for C1 at the spec's own scenario: field A passes one rule
then fails with message "msg", field B has a passing rule; the batch
call rejects with A's error, stores it, and equals the call that stops
at A. -/
theorem form3_validate_batch_short_circuit_witness :
    (Form3.validate shortCircuitForm3 (some ["A", "B"])).1 =
        Except.error (Form3.JsThrow.fieldError ⟨some "msg"⟩) ∧
      ((Form3.validate shortCircuitForm3
            (some ["A", "B"])).2).formFieldsError "A" = some ⟨some "msg"⟩ ∧
      Form3.validate shortCircuitForm3 (some ["A", "B"]) =
        Form3.validate shortCircuitForm3 (some ["A"]) :=
  form3_validate_batch_short_circuit shortCircuitForm3 [] "A" ["B"] (some "msg")
    (by simp) rfl

/-- Claim C6 (amended): in the form-3 engine, a rule check's own
failure propagates through validate to the caller unchanged — the call
ends with exactly the thrown value and the state is untouched. -/
theorem form3_validate_propagates_check_failure {α ε : Type}
    (s : Form3.FormState α ε) (pre : List String) (name : String)
    (post : List String) (e : ε)
    (hpre : ∀ m ∈ pre,
      Form3.chainOutcome (s.formFieldsValue.read m) (s.formFieldsRules m) =
          Form3.ChainOutcome.allPassed ∨ s.formFieldsRules m = [])
    (hthrew : Form3.chainOutcome (s.formFieldsValue.read name)
        (s.formFieldsRules name) = Form3.ChainOutcome.threw e) :
    Form3.validate s (some (pre ++ name :: post)) =
      (Except.error (Form3.JsThrow.exn e), s) := by
  have hne : s.formFieldsRules name ≠ [] := by
    intro h0
    rw [h0] at hthrew
    simp [Form3.chainOutcome] at hthrew
  have hstep : ∀ (acc : JsObj (Option α)),
      Form3.validateGo s acc (name :: post) =
        (Except.error (Form3.JsThrow.exn e), s) := by
    intro acc
    rcases hrs : s.formFieldsRules name with _ | ⟨r, rs⟩
    · exact absurd hrs hne
    · rcases hrun : Form3.runFieldRules name (s.formFieldsValue.read name) acc
          (r :: rs) with ⟨out, acc'⟩
      have h1 := Form3.runFieldRules_fst name (s.formFieldsValue.read name)
        (r :: rs) acc
      rw [hrun] at h1
      rw [hrs] at hthrew
      have hout : out = Form3.ChainOutcome.threw e := h1.trans hthrew
      subst hout
      simp [Form3.validateGo, hrs, hrun, List.isEmpty]
  exact Form3.validateGo_append_passing s (name :: post) _ hstep pre hpre ⟨[]⟩

/-- Witness for C6 at a concrete input: a check that fails with the
thrown value "boom" surfaces exactly that value from form-3's validate,
with the state unchanged. -/
theorem form3_validate_propagates_check_failure_witness :
    Form3.validate throwingRuleForm3 (some ["A"]) =
      (Except.error (Form3.JsThrow.exn "boom"), throwingRuleForm3) :=
  form3_validate_propagates_check_failure throwingRuleForm3 [] "A" [] "boom"
    (by simp) rfl

/-- Claim C5 (amended): every field present in a successful form-3
validate result was a target, had at least one registered rule, passed
its whole chain, and is mapped to its value in the value store;
rule-less fields are skipped and excluded.  Form-2's validate instead
includes rule-less target fields. -/
theorem form3_validate_result_only_ruled_passing_fields {α ε : Type}
    (s : Form3.FormState α ε) (ns : List String) (res : JsObj (Option α))
    (n : String)
    (hres : (Form3.validate s (some ns)).1 = Except.ok res)
    (hmem : (res.get n).isSome = true) :
    n ∈ ns ∧ s.formFieldsRules n ≠ [] ∧
      Form3.chainOutcome (s.formFieldsValue.read n) (s.formFieldsRules n) =
        Form3.ChainOutcome.allPassed ∧
      res.get n = some (s.formFieldsValue.read n) := by
  have hne : res.get n ≠ none := by
    intro hnone
    rw [hnone] at hmem
    simp at hmem
  rcases hgo : Form3.validateGo s ⟨[]⟩ ns with ⟨out, s2⟩
  have hv : (Form3.validate s (some ns)).1 = out := by
    have : Form3.validate s (some ns) = Form3.validateGo s ⟨[]⟩ ns := rfl
    rw [this, hgo]
  have hout : out = Except.ok res := hv.symm.trans hres
  subst hout
  rcases Form3.validateGo_ok_mem s ns ⟨[]⟩ res s2 hgo n with h1 | h2
  · exact absurd h1 hne
  · exact h2

/-- Witness for C5 at a concrete input: rule-less field A is excluded
while field B, with one passing rule, is present with its value. -/
theorem form3_validate_result_only_ruled_passing_fields_witness :
    "B" ∈ ["A", "B"] ∧ mixedRulesForm3.formFieldsRules "B" ≠ [] ∧
      Form3.chainOutcome (mixedRulesForm3.formFieldsValue.read "B")
          (mixedRulesForm3.formFieldsRules "B") =
        Form3.ChainOutcome.allPassed ∧
      JsObj.get (⟨[("B", some 5)]⟩ : JsObj (Option Nat)) "B" =
        some (mixedRulesForm3.formFieldsValue.read "B") :=
  form3_validate_result_only_ruled_passing_fields mixedRulesForm3 ["A", "B"]
    ⟨[("B", some 5)]⟩ "B" rfl rfl

/-- Claim C7 (amended): an error rejected by form-2's validateField
carries the failing field's name, the field's value at validation time,
and the message derived from the first failing rule.  Form-3's
FormFieldError, by contrast, carries only a message. -/
theorem form2_error_carries_field_value_message {α ε : Type}
    (s : Form2.FormState α ε) (name : String) (e : Form2.FormFieldError α)
    (s' : Form2.FormState α ε)
    (h : Form2.validateField s name = (Form2.FieldOutcome.rejectedError e, s')) :
    e.field = name ∧ e.value = s.values.read name ∧
      ∃ msg, Form2.runRules (s.values.read name) (s.rules name) =
          Form2.RunOutcome.failed msg ∧
        e.message = Form2.defaultMessage msg := by
  rcases hr : Form2.runRules (s.values.read name) (s.rules name) with _ | msg | ex
  · simp [Form2.validateField, hr] at h
  · have hv : Form2.validateField s name =
        (Form2.FieldOutcome.rejectedError
            ⟨Form2.defaultMessage msg, name, s.values.read name⟩,
          { s with
              isValidating := setKey s.isValidating name true,
              errors := setKey s.errors name
                (some ⟨Form2.defaultMessage msg, name, s.values.read name⟩) }) := by
      simp [Form2.validateField, hr]
    rw [hv] at h
    have h1 := congrArg Prod.fst h
    simp only at h1
    injection h1 with h2
    subst h2
    exact ⟨rfl, rfl, msg, rfl, rfl⟩
  · simp [Form2.validateField, hr] at h

/-- Witness for C7 at a concrete input: the error rejected for field A
with value 3 carries field "A", value 3 and the failing rule's message. -/
theorem form2_error_carries_field_value_message_witness :
    (Form2.FormFieldError.mk "m" "A" (some 3)).field = "A" ∧
      (Form2.FormFieldError.mk "m" "A" (some 3)).value =
        failValueForm2.values.read "A" ∧
      ∃ msg, Form2.runRules (failValueForm2.values.read "A")
          (failValueForm2.rules "A") = Form2.RunOutcome.failed msg ∧
        (Form2.FormFieldError.mk "m" "A" (some 3)).message =
          Form2.defaultMessage msg :=
  form2_error_carries_field_value_message failValueForm2 "A"
    ⟨"m", "A", some 3⟩ ((Form2.validateField failValueForm2 "A").2) rfl
